import Mathlib

/-!
Verification of the lxfu face-verification core against its specification.

The development shallowly embeds the relevant parts of the C++ sources:

* `src/lmdb_store.hpp` — the versioned binary record format of the embedding
  store and its `store_embedding` / `get_embeddings` operations.  Records are
  modelled at the byte level (`List Nat`, one entry per byte); a `float` is
  represented by its 32-bit pattern, since (de)serialization only ever copies
  the raw bits (`memcpy`), never interprets them arithmetically.
* `src/face_service.cpp` — the match engine (`compute_best_match`), the
  capture loop (`capture_faces`), the D-Bus session handlers
  (`handle_claim`, `handle_verify_start`) and the verification worker.
  Similarity arithmetic is modelled over `ℚ` (exact arithmetic in place of
  IEEE `float`/`double`); external collaborators (the face detector,
  `std::stod`/`std::stof`, the loaded configuration) are passed in as
  function arguments, mirroring the spec's collaborator boundary.
-/

namespace LxFu

/-! ## Byte-level primitives

`w32encode` is the little-endian 4-byte image of a 32-bit word, exactly what
`memcpy` of an `int32_t` or a `float` produces; `w32decode` is the matching
read.  `toInt32` reinterprets a 32-bit word as a signed `int32_t`
(two's complement). -/

/-- Little-endian 4-byte encoding of the low 32 bits of `n`
(the bytes `memcpy` writes for an `int32_t`/`float` whose bit pattern is `n`). -/
def w32encode (n : Nat) : List Nat :=
  [n % 256, n / 256 % 256, n / 65536 % 256, n / 16777216 % 256]

/-- Concatenated 4-byte encodings of a list of 32-bit words
(one row of `float`s as laid out in memory). -/
def encodeWords (ws : List Nat) : List Nat :=
  ws.flatMap w32encode

/-- Byte read at offset `i` (out-of-range reads return `0`; every theorem
below only ever reads in range). -/
def byteAt (bs : List Nat) (i : Nat) : Nat :=
  bs.getD i 0

/-- Little-endian 32-bit word read at byte offset `off`,
the model of `memcpy` from `data + off` into an `int32_t`/`float`. -/
def w32decode (bs : List Nat) (off : Nat) : Nat :=
  byteAt bs off + 256 * byteAt bs (off + 1) + 65536 * byteAt bs (off + 2) +
    16777216 * byteAt bs (off + 3)

/-- Reinterpret a 32-bit word as a signed `int32_t` (two's complement). -/
def toInt32 (w : Nat) : Int :=
  if w < 2147483648 then (w : Int) else (w : Int) - 4294967296

/-! ## `LMDBStore::serialize_embeddings` (src/lmdb_store.hpp:24-48)

The record is `int32 count; int32 dim; count*dim*float32` (row-major).
The source throws `Inconsistent embedding dimension for serialization` when
an embedding's length differs from the first one's; modelled as `Except`. -/

/-- Model of `LMDBStore::serialize_embeddings`.  Embeddings are lists of
32-bit float patterns; the buffer is the byte list the C++ code builds.
The source compares `(int32)embedding.size() != dim` inside its copy loop;
lengths are compared directly here, since an embedding whose length differs
from `dim` only after the `int32` cast would overflow the preallocated
buffer (undefined behaviour with no defined result to model). -/
def serialize_embeddings (embeddings : List (List Nat)) : Except String (List Nat) :=
  let dim : Nat := match embeddings with
    | [] => 0
    | e :: _ => e.length
  if embeddings.all (fun e => e.length = dim) then
    Except.ok (w32encode embeddings.length ++ w32encode dim ++
      embeddings.flatMap (fun e => encodeWords e))
  else
    Except.error "Inconsistent embedding dimension for serialization"

/-! ## `LMDBStore::deserialize_embeddings` (src/lmdb_store.hpp:50-90)

Reads the first `int32` as a tentative sample count; if the record is at
least 8 bytes it reads a second `int32` as a tentative dimension, and when
both are positive and `8 + first*second*4` equals the record length it
decodes the multi-sample layout.  Otherwise it falls back to the legacy
single-sample layout `int32 dim; dim*float32`, throwing on any size
mismatch. -/

/-- The guard under which `deserialize_embeddings` accepts the multi-sample
layout (the nested conditions at src/lmdb_store.hpp:59-65): at least 8 bytes,
both header `int32`s (`first`, `second` in the source) positive, and
`8 + first*second*4` exactly the record length. -/
def multiSizeOK (bs : List Nat) : Prop :=
  8 ≤ bs.length ∧ 0 < toInt32 (w32decode bs 0) ∧ 0 < toInt32 (w32decode bs 4) ∧
    8 + (toInt32 (w32decode bs 0)).toNat * (toInt32 (w32decode bs 4)).toNat * 4 = bs.length

/-- The guard under which `deserialize_embeddings` accepts the legacy
single-sample layout (src/lmdb_store.hpp:77-84): positive leading `int32`
(`dim`) and `4 + dim*4` exactly the record length. -/
def legacySizeOK (bs : List Nat) : Prop :=
  0 < toInt32 (w32decode bs 0) ∧ 4 + (toInt32 (w32decode bs 0)).toNat * 4 = bs.length

instance (bs : List Nat) : Decidable (multiSizeOK bs) := by
  unfold multiSizeOK; infer_instance

instance (bs : List Nat) : Decidable (legacySizeOK bs) := by
  unfold legacySizeOK; infer_instance

/-- Model of `LMDBStore::deserialize_embeddings`.  The source's locals
`first` and `second` are the two header reads `toInt32 (w32decode bs 0)` and
`toInt32 (w32decode bs 4)`; its nested ifs (try the multi-sample layout,
fall back to legacy, throw on any mismatch) are flattened into one chain
whose first guard is `multiSizeOK`. -/
def deserialize_embeddings (bs : List Nat) : Except String (List (List Nat)) :=
  if bs.length < 4 then
    Except.error "LMDB value too small to contain embedding metadata"
  else if multiSizeOK bs then
    Except.ok ((List.range (toInt32 (w32decode bs 0)).toNat).map (fun i =>
      (List.range (toInt32 (w32decode bs 4)).toNat).map (fun j =>
        w32decode bs (8 + (i * (toInt32 (w32decode bs 4)).toNat + j) * 4))))
  else if toInt32 (w32decode bs 0) ≤ 0 then
    Except.error "Invalid embedding dimension stored in legacy LMDB entry"
  else if 4 + (toInt32 (w32decode bs 0)).toNat * 4 ≠ bs.length then
    Except.error "LMDB embedding payload size mismatch"
  else
    Except.ok [(List.range (toInt32 (w32decode bs 0)).toNat).map (fun j =>
      w32decode bs (4 + j * 4))]

/-! ## The store as a key-value state

LMDB maps a profile name to one opaque byte record.  The environment is
modelled as an association list with the raw serialized bytes as values;
`mdb_put` replaces the record under an existing key, `mdb_stat` counts the
entries.  A failed transaction (`mdb_txn_abort`) leaves the state as it was,
so each write operation returns the (possibly unchanged) state alongside its
`Except` outcome. -/

/-- The LMDB environment: profile name to raw record bytes. -/
abbrev StoreState := List (String × List Nat)

/-- Model of `mdb_get`: the record stored under `name`, if any. -/
def lookupKey (s : StoreState) (name : String) : Option (List Nat) :=
  match s.find? (fun p => p.1 == name) with
  | some p => some p.2
  | none => none

/-- Model of `mdb_put`: replace the record under `name`, or add one. -/
def insertKey (s : StoreState) (name : String) (v : List Nat) : StoreState :=
  if s.any (fun p => p.1 == name) then
    s.map (fun p => if p.1 == name then (name, v) else p)
  else
    s ++ [(name, v)]

/-- Model of `LMDBStore::size` (src/lmdb_store.hpp:298-311): `mdb_stat`
entry count, i.e. the number of records (one per profile name). -/
def store_size (s : StoreState) : Nat :=
  s.length

/-- Model of `LMDBStore::fetch_embeddings_for_key` (src/lmdb_store.hpp:92-103):
`MDB_NOTFOUND` yields the empty list, otherwise the record is deserialized. -/
def fetch_embeddings_for_key (s : StoreState) (name : String) :
    Except String (List (List Nat)) :=
  match lookupKey s name with
  | none => Except.ok []
  | some bs => deserialize_embeddings bs

/-- Model of `LMDBStore::get_embeddings` (src/lmdb_store.hpp:224-249):
absent names read as the empty list. -/
def get_embeddings (s : StoreState) (name : String) :
    Except String (List (List Nat)) :=
  match lookupKey s name with
  | none => Except.ok []
  | some bs => deserialize_embeddings bs

/-- Model of `LMDBStore::store_embedding` (src/lmdb_store.hpp:154-188) in
read-write mode (in read-only mode the function throws before doing any of
this): fetch the existing list, reject a dimension mismatch against its
first element, append, serialize the whole list and commit.  Every failure
aborts the transaction, returning the unchanged state. -/
def store_embedding (s : StoreState) (name : String) (embedding : List Nat) :
    StoreState × Except String Nat :=
  match fetch_embeddings_for_key s name with
  | Except.error msg => (s, Except.error msg)
  | Except.ok embeddings =>
    -- `if (!embeddings.empty() && embeddings.front().size() != embedding.size())`
    if embeddings ≠ [] ∧ embeddings.headI.length ≠ embedding.length then
      (s, Except.error "Embedding dimension mismatch while appending to existing profile")
    else
      match serialize_embeddings (embeddings ++ [embedding]) with
      | Except.error msg => (s, Except.error msg)
      | Except.ok buffer => (insertKey s name buffer, Except.ok (embeddings ++ [embedding]).length)

/-! ## The match engine — `FaceService::compute_best_match`
(src/face_service.cpp:380-445)

Similarity arithmetic is carried out in `ℚ`, standing in for the exact real
values the `float`/`double` code approximates.  `inner_product` walks the
query vector and reads the stored vector positionally, which `zipWith`
models (the call sites guarantee equal lengths via the dimension filter). -/

/-- Model of `std::inner_product(query.begin(), query.end(), stored.begin(), 0.0f)`. -/
def dotProduct (q s : List ℚ) : ℚ :=
  (List.zipWith (fun a b => a * b) q s).sum

/-- The remap `(sim + 1.0f) * 0.5f` from cosine range `[-1,1]` to `[0,1]`. -/
def remap (x : ℚ) : ℚ :=
  (x + 1) / 2

/-- The similarity of every (stored, query) pair of one candidate profile, in
the order the nested loops of src/face_service.cpp:418-425 visit them
(stored outer, query inner). -/
def profile_pairs (embeddings stored_list : List (List ℚ)) : List ℚ :=
  stored_list.flatMap (fun stored => embeddings.map (fun query => remap (dotProduct query stored)))

/-- The candidate's average similarity `sum / count` over all pairs. -/
def profile_avg (embeddings stored_list : List (List ℚ)) : ℚ :=
  (profile_pairs embeddings stored_list).sum / ((profile_pairs embeddings stored_list).length : ℚ)

/-- The candidate's running maximum similarity, seeded with `-1.0f`. -/
def profile_max (embeddings stored_list : List (List ℚ)) : ℚ :=
  (profile_pairs embeddings stored_list).foldl max (-1)

/-- The `continue` guard at src/face_service.cpp:400-402: with `allow_all`
false and a required name present, every other profile is skipped outright. -/
def skip_entry (required_name : Option String) (allow_all : Bool) (name : String) : Bool :=
  !allow_all && (match required_name with
    | some r => name != r
    | none => false)

/-- One iteration of the candidate loop of `compute_best_match`, updating the
running best `(avg, max, name)` triple (seeded `(-1, -1, "")`). -/
def cbm_step (embeddings : List (List ℚ)) (required_name : Option String)
    (allow_all : Bool) (dim : Nat) (best : ℚ × ℚ × String)
    (entry : String × List (List ℚ)) : ℚ × ℚ × String :=
  if skip_entry required_name allow_all entry.1 then best
  else if entry.2 = [] then best
  else if entry.2.any (fun emb => emb.length ≠ dim) then best
  else if (profile_pairs embeddings entry.2).length = 0 then best
  else if profile_avg embeddings entry.2 > best.1 then
    (profile_avg embeddings entry.2, profile_max embeddings entry.2, entry.1)
  else best

/-- Model of `FaceService::compute_best_match` (src/face_service.cpp:380-445).
`entries` is the `get_all_embeddings()` snapshot; returns
`(name, avgSimilarity, maxSimilarity)` of the best candidate by average. -/
def compute_best_match (embeddings : List (List ℚ))
    (entries : List (String × List (List ℚ))) (required_name : Option String)
    (allow_all : Bool) : Option (String × ℚ × ℚ) :=
  match embeddings with
  | [] => none
  | q0 :: _ =>
    if entries = [] then none
    else
      let best := entries.foldl (cbm_step embeddings required_name allow_all q0.length) (-1, -1, "")
      if best.1 < 0 then none
      else some (best.2.2, best.1, best.2.1)

/-! ## The capture loop — `FaceService::capture_faces`
(src/face_service.cpp:307-378)

The camera and clock are abstracted into the sequence of frames the loop
successfully reads during the capture window; the face detector is the
collaborator `det : Frame → Option Frame` (`crop_to_face` as used by every
call site).  Each frame with a detected face contributes its crop; while no
face has been found yet, raw frames accumulate as fallback candidates.
After the window, if no face was ever found, detection is re-run on the most
recent fallback frame (src/face_service.cpp:371-375; the identical logic
appears at src/pam_lxfu.cpp:295-299). -/

/-- One iteration of the capture loop body (src/face_service.cpp:354-362):
`acc = (face_images, fallback_frames)`. -/
def capture_step {α : Type} (det : α → Option α) (acc : List α × List α)
    (frame : α) : List α × List α :=
  match det frame with
  | some face => (acc.1 ++ [face], acc.2)
  | none => if acc.1.isEmpty then (acc.1, acc.2 ++ [frame]) else acc

/-- Model of `FaceService::capture_faces`: the face images returned for the
given sequence of successfully read frames. -/
def capture_faces {α : Type} (det : α → Option α) (frames : List α) : List α :=
  let acc := frames.foldl (capture_step det) ([], [])
  match acc.1, acc.2.getLast? with
  | [], some last =>
    (match det last with
     | some face => [face]
     | none => [])
  | faces, _ => faces

/-! ## The verification-session state machine
(src/face_service.cpp:258-305, 541-575)

The service's session state is the three flags `claimed_`, `verifying_` and
`stop_requested_`.  D-Bus handlers run under `state_mutex_` and are modelled
as pure transitions from a `SessionState` to a new state plus an outcome.
`sd_bus_error_set_errno` codes become `BusError`. -/

/-- The errno-based failures returned by the D-Bus handlers. -/
inductive BusError : Type where
  | EBUSY : BusError
  | EPERM : BusError
  | EALREADY : BusError
deriving DecidableEq, Repr

/-- The flags `claimed_`, `verifying_`, `stop_requested_` of `FaceService`. -/
structure SessionState : Type where
  claimed : Bool
  verifying : Bool
  stopRequested : Bool
deriving DecidableEq, Repr

/-- Model of `FaceService::handle_claim` (src/face_service.cpp:258-265). -/
def handle_claim (s : SessionState) : SessionState × Except BusError Unit :=
  if s.claimed then (s, Except.error BusError.EBUSY)
  else ({ s with claimed := true }, Except.ok ())

/-- Model of `parse_bool` (src/face_service.cpp:27-39). -/
def parse_bool (value : String) (fallback : Bool) : Bool :=
  let lowered := value.toLower
  if lowered = "1" ∨ lowered = "true" ∨ lowered = "yes" ∨ lowered = "on" then true
  else if lowered = "0" ∨ lowered = "false" ∨ lowered = "no" ∨ lowered = "off" then false
  else fallback

/-- Model of `parse_double` (src/face_service.cpp:41-50); `stod` is the
external `std::stod`, with `none` standing for a parse exception. -/
def parse_double (stod : String → Option ℚ) (value : String) (fallback : ℚ) : ℚ :=
  if value = "" then fallback
  else
    match stod value with
    | some d => d
    | none => fallback

/-- Model of `parse_float` (src/face_service.cpp:52-61); `stof` is the
external `std::stof`. -/
def parse_float (stof : String → Option ℚ) (value : String) (fallback : ℚ) : ℚ :=
  if value = "" then fallback
  else
    match stof value with
    | some f => f
    | none => fallback

/-- The seven values captured by the worker lambda of
`FaceService::start_verification` (src/face_service.cpp:563-565). -/
structure VerifyParams : Type where
  warmupDelay : ℚ
  captureDuration : ℚ
  frameInterval : ℚ
  threshold : ℚ
  devicePath : String
  targetName : String
  allowAll : Bool
deriving DecidableEq, Repr

/-- Model of `FaceService::start_verification` (src/face_service.cpp:541-566):
the parameters handed to the spawned worker.  `cget key default` is
`config_.get(key, default)` on the loaded configuration (configuration
loading is an external collaborator); `dWarmup`/`dCapture`/`dInterval`/
`dThreshold` are the `default_*_` fields computed at construction.  The
`mode` argument is received and immediately discarded (`(void)mode;`). -/
def start_verification_params (cget : String → String → String)
    (stod stof : String → Option ℚ) (dWarmup dCapture dInterval dThreshold : ℚ)
    (mode : String) : VerifyParams :=
  let _ := mode  -- the source line reads `(void)mode;`
  { warmupDelay := parse_double stod (cget "service_warmup_delay" "") dWarmup
    captureDuration := parse_double stod (cget "service_capture_duration" "") dCapture
    frameInterval := parse_double stod (cget "service_frame_interval" "") dInterval
    threshold := parse_float stof (cget "service_threshold" "") dThreshold
    devicePath := cget "service_device" (cget "default_device" "/dev/video0")
    targetName := cget "service_profile" (cget "default_profile" "default")
    allowAll := parse_bool (cget "service_allow_all" "false") false }

/-- Model of `FaceService::handle_verify_start` (src/face_service.cpp:279-300):
checks under the state mutex, then (only on success) spawns the worker with
the parameters of `start_verification`; the spawned parameters are returned
as `some params`, and `none` means no worker was spawned. -/
def handle_verify_start (s : SessionState) (cget : String → String → String)
    (stod stof : String → Option ℚ) (dWarmup dCapture dInterval dThreshold : ℚ)
    (mode : String) : SessionState × Except BusError Unit × Option VerifyParams :=
  if !s.claimed then (s, Except.error BusError.EPERM, none)
  else if s.verifying then (s, Except.error BusError.EALREADY, none)
  else ({ s with verifying := true, stopRequested := false }, Except.ok (),
    some (start_verification_params cget stod stof dWarmup dCapture dInterval dThreshold mode))

/-! ## The verification worker — `FaceService::verification_worker`
(src/face_service.cpp:458-539)

The worker's externally determined outcomes are collected in `WorkerEnv`:
whether the detector initialized, whether the `FaceEngine` constructor threw,
whether an exception escaped any later step (device open, LMDB open, …) into
the catch-all at line 533, whether `stop_requested_` was observed after
capture, whether capture produced no faces, whether every embedding
extraction failed, and the best-match outcome against the threshold.  The
worker is the function from that environment and the incoming value of
`stop_requested_` to the final flag values and the emitted
`VerificationStatus` signals. -/

/-- External outcomes of one verification run. -/
structure WorkerEnv : Type where
  resourcesReady : Bool
  engineError : Option String
  unexpectedError : Option String
  stopSeen : Bool
  noFaces : Bool
  noEmbeddings : Bool
  matchResult : Option (String × ℚ)
  threshold : ℚ

/-- Final flag values and emitted signals of one worker run. -/
structure WorkerResult : Type where
  verifying : Bool
  stopRequested : Bool
  signals : List (String × String)
deriving Repr

/-- Model of `FaceService::verification_worker`.  `stopReq0` is the value of
`stop_requested_` while the worker runs (it is left untouched on paths that
do not store to it). -/
def verification_worker (env : WorkerEnv) (stopReq0 : Bool) : WorkerResult :=
  if !env.resourcesReady then
    { verifying := false, stopRequested := stopReq0,
      signals := [("verify-error", "resources-unavailable")] }
  else
    match env.engineError with
    | some msg =>
      { verifying := false, stopRequested := stopReq0,
        signals := [("verify-error", msg)] }
    | none =>
      match env.unexpectedError with
      | some msg =>
        -- an exception from capture, extraction or the store lands in the
        -- catch-all (line 533) and then falls through to lines 537-538
        { verifying := false, stopRequested := false,
          signals := [("verify-started", ""), ("verify-error", msg)] }
      | none =>
        if env.stopSeen then
          { verifying := false, stopRequested := false,
            signals := [("verify-started", ""), ("verify-cancelled", "")] }
        else if env.noFaces then
          { verifying := false, stopRequested := false,
            signals := [("verify-started", ""), ("verify-no-face", "no-valid-frames")] }
        else if env.noEmbeddings then
          { verifying := false, stopRequested := false,
            signals := [("verify-started", ""), ("verify-error", "embedding-failed")] }
        else
          match env.matchResult with
          | none =>
            { verifying := false, stopRequested := false,
              signals := [("verify-started", ""), ("verify-no-match", "no-enrollment")] }
          | some res =>
            -- `res` is `(matched_name, avg_similarity)`; the source appends
            -- `":" + std::to_string(avg)` to the message, a rendering detail
            -- immaterial to the session flags
            if res.2 ≥ env.threshold then
              { verifying := false, stopRequested := false,
                signals := [("verify-started", ""), ("verify-match", res.1)] }
            else
              { verifying := false, stopRequested := false,
                signals := [("verify-started", ""), ("verify-no-match", res.1)] }

/-! ## Byte-level lemmas -/

theorem w32encode_length (n : Nat) : (w32encode n).length = 4 := rfl

theorem encodeWords_nil : encodeWords [] = [] := rfl

theorem encodeWords_cons (w : Nat) (ws : List Nat) :
    encodeWords (w :: ws) = w32encode w ++ encodeWords ws := rfl

theorem encodeWords_length (ws : List Nat) : (encodeWords ws).length = 4 * ws.length := by
  induction ws with
  | nil => rfl
  | cons w ws ih =>
    rw [encodeWords_cons, List.length_append, w32encode_length, ih]
    simp only [List.length_cons]
    omega

theorem encodeWords_append (a b : List Nat) :
    encodeWords (a ++ b) = encodeWords a ++ encodeWords b := by
  induction a with
  | nil => rfl
  | cons w ws ih =>
    rw [List.cons_append, encodeWords_cons, encodeWords_cons, ih, List.append_assoc]

theorem byteAt_append_right (xs ys : List Nat) (k : Nat) :
    byteAt (xs ++ ys) (xs.length + k) = byteAt ys k := by
  unfold byteAt
  rw [List.getD_append_right _ _ _ _ (by omega)]
  congr 1
  omega

/-- Reading a 32-bit word past a prefix reads it from the suffix. -/
theorem w32decode_append_right (xs ys : List Nat) (k : Nat) :
    w32decode (xs ++ ys) (xs.length + k) = w32decode ys k := by
  unfold w32decode
  rw [byteAt_append_right,
    show xs.length + k + 1 = xs.length + (k + 1) by omega, byteAt_append_right,
    show xs.length + k + 2 = xs.length + (k + 2) by omega, byteAt_append_right,
    show xs.length + k + 3 = xs.length + (k + 3) by omega, byteAt_append_right]

/-- Decoding right after encoding recovers the low 32 bits. -/
theorem w32decode_encode (n : Nat) (rest : List Nat) :
    w32decode (w32encode n ++ rest) 0 = n % 4294967296 := by
  have h0 : byteAt (w32encode n ++ rest) 0 = n % 256 := by
    unfold byteAt w32encode
    rw [List.getD_append _ _ _ _ (by simp [w32encode])]
    rfl
  have h1 : byteAt (w32encode n ++ rest) 1 = n / 256 % 256 := by
    unfold byteAt w32encode
    rw [List.getD_append _ _ _ _ (by simp [w32encode])]
    rfl
  have h2 : byteAt (w32encode n ++ rest) 2 = n / 65536 % 256 := by
    unfold byteAt w32encode
    rw [List.getD_append _ _ _ _ (by simp [w32encode])]
    rfl
  have h3 : byteAt (w32encode n ++ rest) 3 = n / 16777216 % 256 := by
    unfold byteAt w32encode
    rw [List.getD_append _ _ _ _ (by simp [w32encode])]
    rfl
  unfold w32decode
  rw [h0, h1, h2, h3]
  omega

theorem toInt32_of_lt {n : Nat} (h : n < 2147483648) : toInt32 n = (n : Int) := by
  unfold toInt32
  rw [if_pos h]

/-- Reading word `k` of an encoded word list recovers that word. -/
theorem w32decode_encodeWords (ws : List Nat) (k : Nat) (hk : k < ws.length)
    (hb : ∀ x ∈ ws, x < 4294967296) :
    w32decode (encodeWords ws) (4 * k) = ws.getD k 0 := by
  induction ws generalizing k with
  | nil => simp at hk
  | cons w ws ih =>
    cases k with
    | zero =>
      rw [encodeWords_cons, Nat.mul_zero, w32decode_encode,
        Nat.mod_eq_of_lt (hb w (by simp))]
      rfl
    | succ k =>
      rw [encodeWords_cons,
        show 4 * (k + 1) = (w32encode w).length + 4 * k by rw [w32encode_length]; omega,
        w32decode_append_right,
        ih k (by simpa using hk) (fun x hx => hb x (by simp [hx]))]
      rfl

/-! ## List helpers for the row-major layout -/

theorem map_getD_range {α : Type} (v : List α) (d0 : α) :
    (List.range v.length).map (fun j => v.getD j d0) = v := by
  induction v with
  | nil => rfl
  | cons a t ih =>
    rw [List.length_cons, List.range_succ_eq_map, List.map_cons, List.map_map]
    have hcomp : ((fun j => (a :: t).getD j d0) ∘ Nat.succ) = (fun j => t.getD j d0) := rfl
    rw [hcomp, ih]
    rfl

theorem flatten_length_uniform (l : List (List Nat)) (d : Nat)
    (hd : ∀ e ∈ l, e.length = d) : l.flatten.length = l.length * d := by
  induction l with
  | nil => simp
  | cons e t ih =>
    rw [List.flatten_cons, List.length_append, hd e (by simp),
      ih (fun x hx => hd x (by simp [hx])), List.length_cons]
    ring

theorem flatMap_encodeWords (l : List (List Nat)) :
    l.flatMap (fun e => encodeWords e) = encodeWords l.flatten := by
  induction l with
  | nil => rfl
  | cons e t ih =>
    rw [List.flatMap_cons, List.flatten_cons, encodeWords_append, ih]

theorem mem_of_mem_flatten {x : Nat} {l : List (List Nat)}
    (hval : ∀ e ∈ l, ∀ y ∈ e, y < 4294967296) (hx : x ∈ l.flatten) :
    x < 4294967296 := by
  rw [List.mem_flatten] at hx
  obtain ⟨e, he, hxe⟩ := hx
  exact hval e he x hxe

/-- Reading entry `i*d + j` of the flattened row-major payload reads entry
`j` of row `i`, when every row has length `d`. -/
theorem getD_flatten_uniform (l : List (List Nat)) (d : Nat)
    (hd : ∀ e ∈ l, e.length = d) (i j : Nat) (hi : i < l.length) (hj : j < d) :
    l.flatten.getD (i * d + j) 0 = (l.getD i []).getD j 0 := by
  induction l generalizing i with
  | nil => simp at hi
  | cons e t ih =>
    cases i with
    | zero =>
      rw [List.flatten_cons, Nat.zero_mul, Nat.zero_add,
        List.getD_append _ _ _ _ (by rw [hd e (by simp)]; omega)]
      rfl
    | succ i =>
      rw [List.flatten_cons,
        show (i + 1) * d + j = e.length + (i * d + j) by rw [hd e (by simp)]; ring,
        List.getD_append_right _ _ _ _ (by omega),
        show e.length + (i * d + j) - e.length = i * d + j by omega,
        ih (fun x hx => hd x (by simp [hx])) i (by simpa using hi)]
      rfl

/-! ## The serialize / deserialize round trip -/

/-- Serializing a uniform-dimension list succeeds and produces
the documented record layout `int32 count; int32 dim; count*dim*float32`. -/
theorem serialize_embeddings_ok (l : List (List Nat)) (d : Nat) (hne : l ≠ [])
    (hd : ∀ e ∈ l, e.length = d) :
    serialize_embeddings l =
      Except.ok (w32encode l.length ++ w32encode d ++ encodeWords l.flatten) := by
  match l, hne with
  | e :: t, _ =>
    have hlen : e.length = d := hd e (by simp)
    have hall : ((e :: t).all (fun x => x.length = e.length)) = true := by
      rw [List.all_eq_true]
      intro x hx
      rw [decide_eq_true_eq, hd x hx, hlen]
    show (if (e :: t).all (fun x => x.length = e.length) then
        Except.ok (w32encode (e :: t).length ++ w32encode e.length ++
          (e :: t).flatMap (fun x => encodeWords x))
      else Except.error "Inconsistent embedding dimension for serialization") = _
    rw [if_pos hall, flatMap_encodeWords, hlen]

/-- Deserialization inverts `serialize_embeddings` on the record of
any nonempty uniform-dimension list with positive dimension (counts and
dimension within `int32` range, scalars 32-bit patterns). -/
theorem deserialize_serialize (l : List (List Nat)) (d : Nat) (hne : l ≠ [])
    (hd : ∀ e ∈ l, e.length = d) (hd1 : 1 ≤ d) (hcount : l.length < 2147483648)
    (hdim : d < 2147483648) (hval : ∀ e ∈ l, ∀ x ∈ e, x < 4294967296) :
    deserialize_embeddings (w32encode l.length ++ w32encode d ++ encodeWords l.flatten) =
      Except.ok l := by
  have hcpos : 1 ≤ l.length := by
    cases l with
    | nil => exact absurd rfl hne
    | cons e t => simp
  have hflatlen : l.flatten.length = l.length * d := flatten_length_uniform l d hd
  have hbslen : (w32encode l.length ++ w32encode d ++ encodeWords l.flatten).length =
      8 + l.length * d * 4 := by
    rw [List.length_append, List.length_append, w32encode_length, w32encode_length,
      encodeWords_length, hflatlen]
    ring
  have h0 : w32decode (w32encode l.length ++ w32encode d ++ encodeWords l.flatten) 0 =
      l.length := by
    rw [List.append_assoc, w32decode_encode, Nat.mod_eq_of_lt (by omega)]
  have h4 : w32decode (w32encode l.length ++ w32encode d ++ encodeWords l.flatten) 4 =
      d := by
    rw [List.append_assoc,
      show (4 : Nat) = (w32encode l.length).length + 0 by rw [w32encode_length],
      w32decode_append_right, w32decode_encode, Nat.mod_eq_of_lt (by omega)]
  have h8 : ∀ m : Nat, w32decode (w32encode l.length ++ w32encode d ++ encodeWords l.flatten)
      (8 + m) = w32decode (encodeWords l.flatten) m := by
    intro m
    rw [show (8 : Nat) + m = (w32encode l.length ++ w32encode d).length + m by
        rw [List.length_append, w32encode_length, w32encode_length],
      w32decode_append_right]
  have hmulti : multiSizeOK (w32encode l.length ++ w32encode d ++ encodeWords l.flatten) := by
    unfold multiSizeOK
    rw [h0, h4, toInt32_of_lt hcount, toInt32_of_lt hdim, Int.toNat_natCast,
      Int.toNat_natCast, hbslen]
    refine ⟨by omega, by exact_mod_cast hcpos, by exact_mod_cast hd1, rfl⟩
  unfold deserialize_embeddings
  rw [if_neg (by omega), if_pos hmulti]
  simp only [h0, h4, toInt32_of_lt hcount, toInt32_of_lt hdim, Int.toNat_natCast]
  congr 1
  have hrow : ∀ i ∈ List.range l.length,
      (List.range d).map (fun j => w32decode
        (w32encode l.length ++ w32encode d ++ encodeWords l.flatten) (8 + (i * d + j) * 4)) =
      l.getD i [] := by
    intro i hi
    rw [List.mem_range] at hi
    have hilen : (l.getD i []).length = d := by
      have hmem : l.getD i [] ∈ l := by
        rw [List.getD_eq_getElem l [] hi]
        exact List.getElem_mem hi
      exact hd _ hmem
    have hcell : ∀ j ∈ List.range d,
        w32decode (w32encode l.length ++ w32encode d ++ encodeWords l.flatten)
          (8 + (i * d + j) * 4) = (l.getD i []).getD j 0 := by
      intro j hj
      rw [List.mem_range] at hj
      have hidx : i * d + j < l.flatten.length := by
        rw [hflatlen]
        calc i * d + j < i * d + d := by omega
          _ = (i + 1) * d := by ring
          _ ≤ l.length * d := Nat.mul_le_mul_right d (by omega)
      rw [h8, show (i * d + j) * 4 = 4 * (i * d + j) by ring,
        w32decode_encodeWords l.flatten _ hidx (fun x hx => mem_of_mem_flatten hval hx),
        getD_flatten_uniform l d hd i j hi hj]
    calc (List.range d).map (fun j => w32decode
          (w32encode l.length ++ w32encode d ++ encodeWords l.flatten) (8 + (i * d + j) * 4))
        = (List.range d).map (fun j => (l.getD i []).getD j 0) :=
          List.map_congr_left hcell
      _ = l.getD i [] := by rw [← hilen, map_getD_range]
  calc (List.range l.length).map (fun i => (List.range d).map (fun j =>
        w32decode (w32encode l.length ++ w32encode d ++ encodeWords l.flatten)
          (8 + (i * d + j) * 4)))
      = (List.range l.length).map (fun i => l.getD i []) := List.map_congr_left hrow
    _ = l := map_getD_range l []

/-! ## Store-state lemmas -/

theorem get_eq_fetch (s : StoreState) (name : String) :
    get_embeddings s name = fetch_embeddings_for_key s name := rfl

theorem lookupKey_isSome (s : StoreState) (name : String) :
    (lookupKey s name).isSome = s.any (fun p => p.1 == name) := by
  induction s with
  | nil => rfl
  | cons p t ih =>
    unfold lookupKey at ih ⊢
    cases hp : p.1 == name with
    | true => simp [List.find?_cons, List.any_cons, hp]
    | false => simpa [List.find?_cons, List.any_cons, hp] using ih

theorem lookupKey_insertKey_self (s : StoreState) (name : String) (v : List Nat) :
    lookupKey (insertKey s name v) name = some v := by
  unfold insertKey
  by_cases h : s.any (fun p => p.1 == name) = true
  · rw [if_pos h]
    induction s with
    | nil => simp at h
    | cons p t ih =>
      rw [List.map_cons]
      unfold lookupKey
      cases hp : p.1 == name with
      | true => simp [List.find?_cons]
      | false =>
        have ht : t.any (fun p => p.1 == name) = true := by
          rw [List.any_cons, hp] at h
          simpa using h
        have := ih ht
        unfold lookupKey at this
        simpa [List.find?_cons, hp] using this
  · rw [if_neg h]
    induction s with
    | nil =>
      unfold lookupKey
      simp [List.find?_cons]
    | cons p t ih =>
      have hp : (p.1 == name) = false := by
        by_contra hc
        rw [Bool.not_eq_false] at hc
        exact h (by rw [List.any_cons, hc]; simp)
      have ht : ¬ t.any (fun p => p.1 == name) = true := by
        intro hc
        exact h (by rw [List.any_cons, hc]; simp)
      have := ih ht
      unfold lookupKey at this ⊢
      simpa [List.find?_cons, hp] using this

theorem insertKey_length (s : StoreState) (name : String) (v : List Nat) :
    (insertKey s name v).length =
      if s.any (fun p => p.1 == name) then s.length else s.length + 1 := by
  unfold insertKey
  by_cases h : s.any (fun p => p.1 == name) = true
  · rw [if_pos h, if_pos h, List.length_map]
  · rw [if_neg h, if_neg h, List.length_append]
    rfl

/-- A store call on a name that is already present never changes the entry
count: it either fails (aborted transaction) or replaces the record in
place. -/
theorem store_size_of_present (s : StoreState) (name : String) (e : List Nat)
    (h : (lookupKey s name).isSome = true) :
    store_size (store_embedding s name e).1 = store_size s := by
  have hany : s.any (fun p => p.1 == name) = true := by
    rw [← lookupKey_isSome]; exact h
  unfold store_embedding
  cases hf : fetch_embeddings_for_key s name with
  | error msg => rfl
  | ok embeddings =>
    dsimp only
    by_cases hdim : embeddings ≠ [] ∧ embeddings.headI.length ≠ e.length
    · rw [if_pos hdim]
    · rw [if_neg hdim]
      cases hs : serialize_embeddings (embeddings ++ [e]) with
      | error msg => rfl
      | ok buffer =>
        show store_size (insertKey s name buffer) = store_size s
        unfold store_size
        rw [insertKey_length, if_pos hany]

/-- A successful append: `store_embedding` commits the serialized record of
the old list with the new embedding appended, and `get_embeddings` on the
new state reads that list back. -/
theorem store_embedding_ok (s : StoreState) (name : String) (e : List Nat)
    (L : List (List Nat)) (hget : get_embeddings s name = Except.ok L)
    (hd : ∀ v ∈ L, v.length = e.length) (he1 : 1 ≤ e.length)
    (hcount : L.length + 1 < 2147483648) (hdim : e.length < 2147483648)
    (hvalL : ∀ v ∈ L, ∀ x ∈ v, x < 4294967296) (hvale : ∀ x ∈ e, x < 4294967296) :
    store_embedding s name e =
      (insertKey s name (w32encode (L ++ [e]).length ++ w32encode e.length ++
          encodeWords (L ++ [e]).flatten),
        Except.ok (L ++ [e]).length) ∧
    get_embeddings (store_embedding s name e).1 name = Except.ok (L ++ [e]) := by
  have hfetch : fetch_embeddings_for_key s name = Except.ok L := hget
  have hdall : ∀ v ∈ L ++ [e], v.length = e.length := by
    intro v hv
    rcases List.mem_append.mp hv with h | h
    · exact hd v h
    · simp only [List.mem_singleton] at h
      rw [h]
  have hvalall : ∀ v ∈ L ++ [e], ∀ x ∈ v, x < 4294967296 := by
    intro v hv
    rcases List.mem_append.mp hv with h | h
    · exact hvalL v h
    · simp only [List.mem_singleton] at h
      rw [h]
      exact hvale
  have hser : serialize_embeddings (L ++ [e]) =
      Except.ok (w32encode (L ++ [e]).length ++ w32encode e.length ++
        encodeWords (L ++ [e]).flatten) :=
    serialize_embeddings_ok (L ++ [e]) e.length (by simp) hdall
  have hcnt : (L ++ [e]).length < 2147483648 := by
    rw [List.length_append]
    simpa using hcount
  have hdes : deserialize_embeddings (w32encode (L ++ [e]).length ++ w32encode e.length ++
      encodeWords (L ++ [e]).flatten) = Except.ok (L ++ [e]) :=
    deserialize_serialize (L ++ [e]) e.length (by simp) hdall he1 hcnt hdim hvalall
  have hstore : store_embedding s name e =
      (insertKey s name (w32encode (L ++ [e]).length ++ w32encode e.length ++
        encodeWords (L ++ [e]).flatten), Except.ok (L ++ [e]).length) := by
    unfold store_embedding
    rw [hfetch]
    dsimp only
    rw [if_neg ?hcond, hser]
    case hcond =>
      rintro ⟨hne, hlen⟩
      cases L with
      | nil => exact hne rfl
      | cons v t => exact hlen (by simpa using hd v (by simp))
  refine ⟨hstore, ?_⟩
  rw [hstore]
  show get_embeddings (insertKey s name _) name = _
  unfold get_embeddings
  rw [lookupKey_insertKey_self]
  exact hdes

/-! ## Claim C1 -/

/-- Claim **C1**: for any embedding `e` (nonempty — unit-norm vectors have positive
dimension — with 32-bit float patterns as scalars, within `int32` count and
dimension range) and any profile name: `store_embedding name e` followed by
`get_embeddings name` yields the previous list with `e` appended, so its last
element is `e` and its length is exactly one greater than before; and
`store_size` counts the name once — storing into a fresh name adds one entry,
and any further store to that name leaves the entry count unchanged
regardless of how many samples it holds. -/
theorem store_then_get_appends (s : StoreState) (name : String) (e : List Nat)
    (L : List (List Nat)) (hget : get_embeddings s name = Except.ok L)
    (hd : ∀ v ∈ L, v.length = e.length) (he1 : 1 ≤ e.length)
    (hcount : L.length + 1 < 2147483648) (hdim : e.length < 2147483648)
    (hvalL : ∀ v ∈ L, ∀ x ∈ v, x < 4294967296) (hvale : ∀ x ∈ e, x < 4294967296) :
    (store_embedding s name e).2 = Except.ok (L.length + 1) ∧
    get_embeddings (store_embedding s name e).1 name = Except.ok (L ++ [e]) ∧
    (L ++ [e]).getLast? = some e ∧
    (L ++ [e]).length = L.length + 1 ∧
    store_size (store_embedding s name e).1 =
      (if (lookupKey s name).isSome then store_size s else store_size s + 1) ∧
    (∀ e2 : List Nat,
      store_size (store_embedding (store_embedding s name e).1 name e2).1 =
        store_size (store_embedding s name e).1) := by
  obtain ⟨hstore, hget2⟩ :=
    store_embedding_ok s name e L hget hd he1 hcount hdim hvalL hvale
  have hlenapp : (L ++ [e]).length = L.length + 1 := by simp
  refine ⟨?_, hget2, List.getLast?_concat L, hlenapp, ?_, ?_⟩
  · rw [hstore, hlenapp]
  · rw [hstore]
    show store_size (insertKey s name _) = _
    unfold store_size
    rw [insertKey_length, lookupKey_isSome]
  · intro e2
    apply store_size_of_present
    rw [hstore]
    show (lookupKey (insertKey s name _) name).isSome = true
    rw [lookupKey_insertKey_self]
    rfl

/-- Witness for C1: storing `[3, 4]` as profile `alice` into the empty store
and reading it back. -/
theorem store_then_get_appends_witness :
    (store_embedding [] "alice" [3, 4]).2 =
      Except.ok (([] : List (List Nat)).length + 1) ∧
    get_embeddings (store_embedding [] "alice" [3, 4]).1 "alice" =
      Except.ok ([] ++ [[3, 4]]) ∧
    (([] : List (List Nat)) ++ [[3, 4]]).getLast? = some [3, 4] ∧
    (([] : List (List Nat)) ++ [[3, 4]]).length = ([] : List (List Nat)).length + 1 ∧
    store_size (store_embedding [] "alice" [3, 4]).1 =
      (if (lookupKey [] "alice").isSome then store_size [] else store_size [] + 1) ∧
    (∀ e2 : List Nat,
      store_size (store_embedding (store_embedding [] "alice" [3, 4]).1 "alice" e2).1 =
        store_size (store_embedding [] "alice" [3, 4]).1) :=
  store_then_get_appends [] "alice" [3, 4] [] rfl (by simp) (by decide) (by decide)
    (by decide) (by simp) (by decide)

/-! ## Claim C2 -/

/-- Claim **C2**: for every non-empty list of equal-dimension embeddings (positive
dimension, scalars 32-bit float patterns, count and dimension within `int32`
range), deserializing the serialized record returns the original list. -/
theorem serialize_deserialize_roundtrip (l : List (List Nat)) (d : Nat)
    (hne : l ≠ []) (hd : ∀ e ∈ l, e.length = d) (hd1 : 1 ≤ d)
    (hcount : l.length < 2147483648) (hdim : d < 2147483648)
    (hval : ∀ e ∈ l, ∀ x ∈ e, x < 4294967296) :
    ∃ bs, serialize_embeddings l = Except.ok bs ∧
      deserialize_embeddings bs = Except.ok l :=
  ⟨_, serialize_embeddings_ok l d hne hd,
    deserialize_serialize l d hne hd hd1 hcount hdim hval⟩

/-- Witness for C2: a two-sample, dimension-two list survives the round
trip. -/
theorem serialize_deserialize_roundtrip_witness :
    ∃ bs, serialize_embeddings [[1, 2], [3, 4]] = Except.ok bs ∧
      deserialize_embeddings bs = Except.ok [[1, 2], [3, 4]] :=
  serialize_deserialize_roundtrip [[1, 2], [3, 4]] 2 (by decide) (by decide)
    (by decide) (by decide) (by decide) (by decide)

/-! ## Claim C3 -/

/-- Claim **C3**: a payload in the legacy single-sample layout (`int32 d` followed
by `d` float words, `4 + d*4` bytes, `d ≥ 1` within `int32` range) decodes
to the one-element list holding exactly the original vector; and every
payload satisfying neither the multi-sample nor the legacy size equation is
rejected with an error, never silently truncated. -/
theorem legacy_decode_and_reject (v : List Nat) (d : Nat) (hd : v.length = d)
    (hd1 : 1 ≤ d) (hdim : d < 2147483648) (hv : ∀ x ∈ v, x < 4294967296) :
    deserialize_embeddings (w32encode d ++ encodeWords v) = Except.ok [v] ∧
    (∀ bs : List Nat, ¬ multiSizeOK bs → ¬ legacySizeOK bs →
      ∃ msg, deserialize_embeddings bs = Except.error msg) := by
  constructor
  · have hbslen : (w32encode d ++ encodeWords v).length = 4 + d * 4 := by
      rw [List.length_append, w32encode_length, encodeWords_length, hd]
      ring
    have h0 : w32decode (w32encode d ++ encodeWords v) 0 = d := by
      rw [w32decode_encode, Nat.mod_eq_of_lt (by omega)]
    have h4 : ∀ m : Nat, w32decode (w32encode d ++ encodeWords v) (4 + m) =
        w32decode (encodeWords v) m := by
      intro m
      rw [show (4 : Nat) + m = (w32encode d).length + m by rw [w32encode_length],
        w32decode_append_right]
    have hmulti : ¬ multiSizeOK (w32encode d ++ encodeWords v) := by
      rintro ⟨-, hpos1, hpos2, hsz⟩
      rw [h0, toInt32_of_lt hdim, Int.toNat_natCast, hbslen] at hsz
      have hs1 : 1 ≤ (toInt32 (w32decode (w32encode d ++ encodeWords v) 4)).toNat := by
        omega
      have : 8 + d * 1 * 4 ≤ 4 + d * 4 := by
        calc 8 + d * 1 * 4 ≤ 8 + d *
              (toInt32 (w32decode (w32encode d ++ encodeWords v) 4)).toNat * 4 :=
            by
              have := Nat.mul_le_mul_left d hs1
              omega
          _ = 4 + d * 4 := hsz
      omega
    unfold deserialize_embeddings
    rw [if_neg (by omega), if_neg hmulti,
      if_neg (by rw [h0, toInt32_of_lt hdim]; omega),
      if_neg (by rw [h0, toInt32_of_lt hdim, Int.toNat_natCast, hbslen]; omega)]
    congr 1
    simp only [h0, toInt32_of_lt hdim, Int.toNat_natCast]
    congr 1
    have hcell : ∀ j ∈ List.range d,
        w32decode (w32encode d ++ encodeWords v) (4 + j * 4) = v.getD j 0 := by
      intro j hj
      rw [List.mem_range] at hj
      rw [h4, show j * 4 = 4 * j by ring,
        w32decode_encodeWords v j (by omega) hv]
    calc (List.range d).map (fun j => w32decode (w32encode d ++ encodeWords v) (4 + j * 4))
        = (List.range d).map (fun j => v.getD j 0) := List.map_congr_left hcell
      _ = v := by rw [← hd, map_getD_range]
  · intro bs hm hl
    by_cases h4 : bs.length < 4
    · exact ⟨_, by unfold deserialize_embeddings; rw [if_pos h4]⟩
    · by_cases hfirst : toInt32 (w32decode bs 0) ≤ 0
      · exact ⟨_, by unfold deserialize_embeddings; rw [if_neg h4, if_neg hm, if_pos hfirst]⟩
      · have hsize : 4 + (toInt32 (w32decode bs 0)).toNat * 4 ≠ bs.length := by
          intro hc
          exact hl ⟨by omega, hc⟩
        refine ⟨"LMDB embedding payload size mismatch", ?_⟩
        unfold deserialize_embeddings
        rw [if_neg h4, if_neg hm, if_neg hfirst, if_pos hsize]

/-- Witness for C3: the legacy record of the vector `[7]` decodes to
`[[7]]`, and the 5-byte payload `[1,0,0,0,9]` (which satisfies neither size
equation) is rejected. -/
theorem legacy_decode_and_reject_witness :
    deserialize_embeddings (w32encode 1 ++ encodeWords [7]) = Except.ok [[7]] ∧
    (∃ msg, deserialize_embeddings [1, 0, 0, 0, 9] = Except.error msg) :=
  ⟨(legacy_decode_and_reject [7] 1 (by decide) (by decide) (by decide) (by decide)).1,
    (legacy_decode_and_reject [7] 1 (by decide) (by decide) (by decide) (by decide)).2
      [1, 0, 0, 0, 9] (by decide) (by decide)⟩

/-! ## Claim C6 -/

/-- Claim **C6**: if a profile already holds at least one embedding and
`store_embedding` is called with an embedding of a different length, the
operation fails with the dimension-mismatch error and the state — hence the
profile's stored list — is exactly what it was before the call. -/
theorem store_dimension_mismatch_preserves (s : StoreState) (name : String)
    (e v : List Nat) (L : List (List Nat))
    (hget : get_embeddings s name = Except.ok (v :: L))
    (hlen : v.length ≠ e.length) :
    store_embedding s name e =
      (s, Except.error "Embedding dimension mismatch while appending to existing profile") ∧
    get_embeddings (store_embedding s name e).1 name = Except.ok (v :: L) := by
  have hfetch : fetch_embeddings_for_key s name = Except.ok (v :: L) := hget
  have hstore : store_embedding s name e =
      (s, Except.error "Embedding dimension mismatch while appending to existing profile") := by
    unfold store_embedding
    rw [hfetch]
    dsimp only
    rw [if_pos ⟨by simp, by simpa using hlen⟩]
  refine ⟨hstore, ?_⟩
  rw [hstore]
  exact hget

/-- Witness for C6: profile `alice` holds the one-dimensional sample `[7]`;
appending the two-dimensional `[1, 2]` fails and leaves the record
intact. -/
theorem store_dimension_mismatch_preserves_witness :
    store_embedding [("alice", [1, 0, 0, 0, 1, 0, 0, 0, 7, 0, 0, 0])] "alice" [1, 2] =
      ([("alice", [1, 0, 0, 0, 1, 0, 0, 0, 7, 0, 0, 0])],
        Except.error "Embedding dimension mismatch while appending to existing profile") ∧
    get_embeddings
      (store_embedding [("alice", [1, 0, 0, 0, 1, 0, 0, 0, 7, 0, 0, 0])] "alice" [1, 2]).1
      "alice" = Except.ok [[7]] :=
  store_dimension_mismatch_preserves [("alice", [1, 0, 0, 0, 1, 0, 0, 0, 7, 0, 0, 0])]
    "alice" [1, 2] [7] [] (by rfl) (by decide)

/-! ## Claim C4 -/

theorem cbm_step_skip (embeddings : List (List ℚ)) (r : String) (dim : Nat)
    (best : ℚ × ℚ × String) (entry : String × List (List ℚ)) (h : entry.1 ≠ r) :
    cbm_step embeddings (some r) false dim best entry = best := by
  unfold cbm_step
  rw [if_pos]
  unfold skip_entry
  simp [h]

theorem foldl_cbm_skip (embeddings : List (List ℚ)) (r : String) (dim : Nat)
    (entries : List (String × List (List ℚ))) (best : ℚ × ℚ × String)
    (h : ∀ p ∈ entries, p.1 ≠ r) :
    entries.foldl (cbm_step embeddings (some r) false dim) best = best := by
  induction entries generalizing best with
  | nil => rfl
  | cons p t ih =>
    rw [List.foldl_cons, cbm_step_skip _ _ _ _ _ (h p (by simp))]
    exact ih _ (fun q hq => h q (by simp [hq]))

/-- Claim **C4**: with `allow_all = false` and a required target name that no
stored profile bears, `compute_best_match` returns `none` — for every store
snapshot and every query list, however any other profile would score: the
non-target profiles are skipped outright and never become candidates. -/
theorem best_match_absent_target_none (embeddings : List (List ℚ))
    (entries : List (String × List (List ℚ))) (r : String)
    (h : ∀ p ∈ entries, p.1 ≠ r) :
    compute_best_match embeddings entries (some r) false = none := by
  unfold compute_best_match
  cases embeddings with
  | nil => rfl
  | cons q0 qs =>
    dsimp only
    by_cases he : entries = []
    · rw [if_pos he]
    · rw [if_neg he, foldl_cbm_skip _ _ _ _ _ h, if_pos (by norm_num)]

/-- Witness for C4: the store holds only `bob` (a perfectly matching sample),
yet querying for absent `alice` yields no match. -/
theorem best_match_absent_target_none_witness :
    compute_best_match [[1]] [("bob", [[1]])] (some "alice") false = none :=
  best_match_absent_target_none [[1]] [("bob", [[1]])] "alice" (by decide)

/-! ## Claim C5 -/

theorem profile_pairs_length (embeddings stored_list : List (List ℚ)) :
    (profile_pairs embeddings stored_list).length =
      embeddings.length * stored_list.length := by
  unfold profile_pairs
  induction stored_list with
  | nil => simp
  | cons s t ih =>
    rw [List.flatMap_cons, List.length_append, List.length_map, ih, List.length_cons]
    ring

theorem profile_pairs_perm (e1 e2 stored_list : List (List ℚ)) (hp : e1.Perm e2) :
    (profile_pairs e1 stored_list).Perm (profile_pairs e2 stored_list) := by
  unfold profile_pairs
  induction stored_list with
  | nil => exact List.Perm.refl _
  | cons s t ih =>
    rw [List.flatMap_cons, List.flatMap_cons]
    exact (hp.map _).append ih

theorem foldl_max_perm {l1 l2 : List ℚ} (hp : l1.Perm l2) :
    ∀ a : ℚ, l1.foldl max a = l2.foldl max a := by
  induction hp with
  | nil => intro a; rfl
  | cons x h ih =>
    intro a
    rw [List.foldl_cons, List.foldl_cons]
    exact ih (max a x)
  | swap x y l =>
    intro a
    rw [List.foldl_cons, List.foldl_cons, List.foldl_cons, List.foldl_cons,
      max_assoc, max_comm y x, ← max_assoc]
  | trans h1 h2 ih1 ih2 =>
    intro a
    exact (ih1 a).trans (ih2 a)

/-- Claim **C5**: for a candidate profile, `compute_best_match` evaluates exactly
`Q * S` similarity pairs (`Q` query embeddings against `S` stored samples),
and permuting the query list changes neither the profile's average
similarity nor its maximum similarity. -/
theorem profile_pairs_count_and_perm (embeddings embeddings2 stored_list : List (List ℚ))
    (hp : embeddings.Perm embeddings2) :
    (profile_pairs embeddings stored_list).length =
      embeddings.length * stored_list.length ∧
    profile_avg embeddings2 stored_list = profile_avg embeddings stored_list ∧
    profile_max embeddings2 stored_list = profile_max embeddings stored_list := by
  have hpairs := profile_pairs_perm embeddings embeddings2 stored_list hp
  refine ⟨profile_pairs_length embeddings stored_list, ?_, ?_⟩
  · unfold profile_avg
    rw [hpairs.symm.sum_eq, hpairs.symm.length_eq]
  · unfold profile_max
    exact foldl_max_perm hpairs.symm (-1)

/-- Witness for C5: two one-dimensional queries against one stored sample —
two pairs, and swapping the queries changes neither statistic. -/
theorem profile_pairs_count_and_perm_witness :
    (profile_pairs [[1], [2]] [[1]]).length = ([[1], [2]] : List (List ℚ)).length * 1 ∧
    profile_avg [[2], [1]] [[1]] = profile_avg [[1], [2]] [[1]] ∧
    profile_max [[2], [1]] [[1]] = profile_max [[1], [2]] [[1]] :=
  profile_pairs_count_and_perm [[1], [2]] [[2], [1]] [[1]]
    (List.Perm.swap ([2] : List ℚ) [1] [])

/-! ## Claim C7 -/

/-- Claim **C7**: the method `Claim` on an already-claimed session fails with `EBUSY` and
leaves the state unchanged; `VerifyStart` without a claim fails with
`EPERM`; `VerifyStart` during a running verification fails with `EALREADY`,
leaves the state unchanged, and spawns no worker (`none`). -/
theorem session_handler_guards (s : SessionState) (cget : String → String → String)
    (stod stof : String → Option ℚ) (dw dc di dt : ℚ) (mode : String) :
    (s.claimed = true → handle_claim s = (s, Except.error BusError.EBUSY)) ∧
    (s.claimed = false →
      handle_verify_start s cget stod stof dw dc di dt mode =
        (s, Except.error BusError.EPERM, none)) ∧
    (s.claimed = true → s.verifying = true →
      handle_verify_start s cget stod stof dw dc di dt mode =
        (s, Except.error BusError.EALREADY, none)) := by
  refine ⟨?_, ?_, ?_⟩
  · intro h
    unfold handle_claim
    rw [if_pos h]
  · intro h
    unfold handle_verify_start
    rw [if_pos (by rw [h]; rfl)]
  · intro h1 h2
    unfold handle_verify_start
    rw [if_neg (by rw [h1]; simp), if_pos h2]

/-- Witness for C7: the three guard failures at concrete session states. -/
theorem session_handler_guards_witness :
    handle_claim ⟨true, false, false⟩ =
      (⟨true, false, false⟩, Except.error BusError.EBUSY) ∧
    handle_verify_start ⟨false, false, false⟩ (fun _ d => d) (fun _ => none)
        (fun _ => none) 0 0 0 0 "auth" =
      (⟨false, false, false⟩, Except.error BusError.EPERM, none) ∧
    handle_verify_start ⟨true, true, false⟩ (fun _ d => d) (fun _ => none)
        (fun _ => none) 0 0 0 0 "auth" =
      (⟨true, true, false⟩, Except.error BusError.EALREADY, none) :=
  ⟨(session_handler_guards ⟨true, false, false⟩ (fun _ d => d) (fun _ => none)
      (fun _ => none) 0 0 0 0 "auth").1 rfl,
   (session_handler_guards ⟨false, false, false⟩ (fun _ d => d) (fun _ => none)
      (fun _ => none) 0 0 0 0 "auth").2.1 rfl,
   (session_handler_guards ⟨true, true, false⟩ (fun _ d => d) (fun _ => none)
      (fun _ => none) 0 0 0 0 "auth").2.2 rfl rfl⟩

/-! ## Claim C8 -/

theorem worker_verifying_false (env : WorkerEnv) (r : Bool) :
    (verification_worker env r).verifying = false := by
  unfold verification_worker
  repeat' split
  all_goals rfl

theorem worker_stop_characterization (env : WorkerEnv) (r : Bool) :
    (verification_worker env r).stopRequested =
      (if env.resourcesReady = false ∨ env.engineError.isSome = true then r
       else false) := by
  obtain ⟨rr, ee, ue, ss, nf, ne, mr, th⟩ := env
  cases rr <;> cases ee <;> cases ue <;> cases ss <;> cases nf <;> cases ne <;>
    cases mr <;> simp [verification_worker, apply_ite]

/-- Counterexample to claim **C8**: the claim that every worker exit path clears both
flags is false: the resources-unavailable early return
(src/face_service.cpp:466-470) clears only `verifying_`, leaving a set
`stop_requested_` set. -/
theorem worker_clears_both_flags_cex :
    ¬ ((verification_worker ⟨false, none, none, false, false, false, none, 0⟩
          true).verifying = false ∧
       (verification_worker ⟨false, none, none, false, false, false, none, 0⟩
          true).stopRequested = false) := by
  decide

/-- Claim **C8**, amended: every exit path of the worker clears the verifying
flag.  Every exit path except the two pre-capture error returns (detector
resources unavailable at line 466, engine construction failure at line 475)
also clears the stop-requested flag; those two leave it unchanged.  After
any worker exit a fresh `VerifyStart` on a claimed session nevertheless
succeeds and spawns a worker, because `handle_verify_start` itself resets
the stop-requested flag. -/
theorem worker_flags_and_restart (env : WorkerEnv) (stopReq0 : Bool)
    (cget : String → String → String) (stod stof : String → Option ℚ)
    (dw dc di dt : ℚ) (mode : String) :
    (verification_worker env stopReq0).verifying = false ∧
    (verification_worker env stopReq0).stopRequested =
      (if env.resourcesReady = false ∨ env.engineError.isSome = true then stopReq0
       else false) ∧
    (handle_verify_start
        ⟨true, (verification_worker env stopReq0).verifying,
          (verification_worker env stopReq0).stopRequested⟩
        cget stod stof dw dc di dt mode).2.1 = Except.ok () := by
  refine ⟨worker_verifying_false env stopReq0,
    worker_stop_characterization env stopReq0, ?_⟩
  rw [worker_verifying_false]
  unfold handle_verify_start
  rfl

/-! ## Claim C9 -/

/-- Counterexample to claim **C9**: the claim that a window with zero detected faces
falls back to the most recent raw frame as the output is false: with a
detector that finds no face, a one-frame capture returns the empty list,
not the raw frame. -/
theorem capture_raw_fallback_cex :
    ¬ (capture_faces (fun _ : Nat => (none : Option Nat)) [5] = [5]) := by
  decide

/-- Claim **C9**, amended: when the detector finds a face in no frame of the
window, the final fallback branch re-runs that detector on the most recent
raw frame; since it finds nothing there either, the output is empty — the
run does hard-fail with no-face rather than fall back to the raw frame. -/
theorem capture_no_detection_empty {α : Type} (det : α → Option α)
    (frames : List α) (h : ∀ f ∈ frames, det f = none) :
    capture_faces det frames = [] := by
  have hfold : ∀ (fs : List α) (acc : List α), (∀ f ∈ fs, det f = none) →
      fs.foldl (capture_step det) ([], acc) = ([], acc ++ fs) := by
    intro fs
    induction fs with
    | nil =>
      intro acc _
      simp
    | cons f t ih =>
      intro acc hall
      have hstep : capture_step det ([], acc) f = ([], acc ++ [f]) := by
        unfold capture_step
        rw [hall f (by simp)]
        dsimp only
        rw [if_pos (List.isEmpty_nil (α := α))]
      rw [List.foldl_cons, hstep,
        ih (acc ++ [f]) (fun x hx => hall x (by simp [hx]))]
      simp
  unfold capture_faces
  rw [hfold frames [] h]
  dsimp only
  rw [List.nil_append]
  cases hfr : frames.getLast? with
  | none => rfl
  | some last =>
    have hmem : last ∈ frames := by
      have hx : last ∈ frames.getLast? := by rw [hfr]; rfl
      obtain ⟨hne, heq⟩ := List.mem_getLast?_eq_getLast hx
      rw [heq]
      exact List.getLast_mem hne
    show (match det last with
      | some face => [face]
      | none => []) = []
    rw [h last hmem]

/-- Witness for the amended C9: one undetected frame, empty output. -/
theorem capture_no_detection_empty_witness :
    capture_faces (fun _ : Nat => (none : Option Nat)) [5] = [] :=
  capture_no_detection_empty (fun _ => none) [5] (by simp)

/-! ## Claim C10 -/

/-- Claim **C10**: for every pair of `mode` strings passed to `VerifyStart`, the
spawned run is identical: `start_verification` discards its `mode` argument,
so the worker's device path, target name, allow-all flag, threshold and
timing parameters are determined solely by the loaded configuration — and
the whole `handle_verify_start` transition is mode-independent. -/
theorem verify_start_mode_independent (s : SessionState)
    (cget : String → String → String) (stod stof : String → Option ℚ)
    (dw dc di dt : ℚ) (mode1 mode2 : String) :
    start_verification_params cget stod stof dw dc di dt mode1 =
      start_verification_params cget stod stof dw dc di dt mode2 ∧
    handle_verify_start s cget stod stof dw dc di dt mode1 =
      handle_verify_start s cget stod stof dw dc di dt mode2 :=
  ⟨rfl, rfl⟩

end LxFu
